import Mathlib

/-
Shallow embedding of the Turso n8n node (repository n8n-nodes-turso).
The authoritative implementation is the full node class in src/package.json
(the concatenated source blob containing Turso.node.ts with all eight
operations); line references below point into that file.  Each definition
translates the corresponding TypeScript fragment of Turso.execute and its
helpers; theorems at the end of the file settle the frozen claims.
-/

/- ===== JavaScript value model ===== -/

/-- Model of a JavaScript runtime value as it flows through the node:
item JSON payloads, extracted row cells and positional query arguments.
The jsUndefined constructor models the JavaScript undefined value produced by a
failed property lookup. -/
inductive JsValue where
  | jsUndefined : JsValue
  | jnull : JsValue
  | str : String → JsValue
  | num : Int → JsValue
  | obj : List (String × JsValue) → JsValue
  | arr : List JsValue → JsValue

/-- Property access entry[name] on a JavaScript value: on an object it is
the value of the first field with that key, and undefined when the key is
absent or the value is not an object. -/
def getProp (v : JsValue) (name : String) : JsValue :=
  match v with
  | .obj fields =>
    match fields.find? (fun f => f.1 == name) with
    | some f => f.2
    | none => .jsUndefined
  | _ => .jsUndefined

/-- ASCII whitespace recognized by the model of the JavaScript trim. -/
def jsWhitespace (c : Char) : Bool :=
  c = ' ' || c = '\t' || c = '\n' || c = '\r'

/-- Model of the JavaScript String.prototype.trim used by the node's
validation checks: strip whitespace from both ends. -/
def jsTrim (s : String) : String :=
  ⟨((s.data.dropWhile jsWhitespace).reverse.dropWhile jsWhitespace).reverse⟩

/-- Combined emptiness test the node applies to user strings, translating
the TypeScript idiom (!s || s.trim() === ''): s is falsy (the empty
string) or trims to the empty string. -/
def isBlank (s : String) : Bool :=
  s == "" || jsTrim s == ""

/-- Helper for the model of the JavaScript split on a comma. -/
def splitCommaAux : List Char → List Char → List String
  | [], acc => [⟨acc.reverse⟩]
  | c :: rest, acc =>
    if c = ',' then ⟨acc.reverse⟩ :: splitCommaAux rest []
    else splitCommaAux rest (c :: acc)

/-- Model of the JavaScript s.split(',') : the comma-separated fields of s
in order; the empty string yields one empty field. -/
def jsSplitComma (s : String) : List String := splitCommaAux s.data []

/- ===== Statement plan and error model ===== -/

/-- One SQL statement submitted to the libsql client: the sql text and the
ordered positional argument list (Turso.execute passes { sql, args }). -/
structure Stmt where
  sql : String
  args : List JsValue

/-- Error taxonomy of the node: validation denotes a NodeOperationError
raised by a parameter check before (or instead of) a client call, and
capability denotes an error surfaced from the libsql client through
handleDatabaseError. -/
inductive NodeError where
  | validation (msg : String)
  | capability (msg : String)

/- ===== Raw capability results and normalization ===== -/

/-- Column descriptor as delivered by the libsql client: either a plain
name string or a structured object carrying a name field (the ResultColumn
interface of Turso.node.ts). -/
inductive RawColumn where
  | str (s : String)
  | obj (name : String)

/-- Raw result of one client.execute call; every field is optional,
mirroring a sparse libsql ResultSet. -/
structure RawResult where
  columns : Option (List RawColumn)
  rows : Option (List JsValue)
  rowsAffected : Option Int
  lastInsertRowid : Option JsValue

/-- Coalescing of one column descriptor to its name: a plain string is
kept as-is, an object is replaced by its name field (the typeof branch at
src/package.json lines 800 to 807). -/
def columnName : RawColumn → String
  | .str s => s
  | .obj name => name

/-- Optional-chained column mapping result.columns?.map(...) followed by
the JavaScript fallback to the empty list. -/
def normalizeColumns (cols : Option (List RawColumn)) : List String :=
  (cols.map (fun cs => cs.map columnName)).getD []

/-- Normalized result shape built by the executeQuery branch
(ProcessedResult at src/package.json lines 809 to 814): coalesced column
names, rows defaulted to the empty list, rowsAffected and lastInsertRowid
passed through unchanged. -/
structure ProcessedResult where
  columns : List String
  rows : List JsValue
  rowsAffected : Option Int
  lastInsertRowid : Option JsValue

/-- Result normalizer of src/package.json lines 799 to 814. -/
def normalizeResult (r : RawResult) : ProcessedResult :=
  { columns := normalizeColumns r.columns
  , rows := r.rows.getD []
  , rowsAffected := r.rowsAffected
  , lastInsertRowid := r.lastInsertRowid }

/- ===== Per-item response shapes ===== -/

/-- Shape of the JSON object the node appends to returnData for one
statement result; a none field means the key is absent from the object
literal in the corresponding branch of Turso.execute. -/
structure ItemResult where
  columns : Option (List String)
  rows : Option (List JsValue)
  rowsAffected : Option Int
  lastInsertRowid : Option JsValue

/-- Response shape of the executeQuery branch (all four keys present,
src/package.json lines 809 to 814). -/
def queryShape (r : RawResult) : ItemResult :=
  { columns := some (normalizeResult r).columns
  , rows := some (normalizeResult r).rows
  , rowsAffected := (normalizeResult r).rowsAffected
  , lastInsertRowid := (normalizeResult r).lastInsertRowid }

/-- Response shape of one insertRows statement (only rowsAffected and
lastInsertRowid, src/package.json lines 962 to 965). -/
def insertShape (r : RawResult) : ItemResult :=
  { columns := none, rows := none
  , rowsAffected := r.rowsAffected, lastInsertRowid := r.lastInsertRowid }

/-- Response shape of one updateRows statement (only rowsAffected,
src/package.json lines 1078 to 1080). -/
def updateShape (r : RawResult) : ItemResult :=
  { columns := none, rows := none
  , rowsAffected := r.rowsAffected, lastInsertRowid := none }

/-- Response shape of the deleteRows statement (only rowsAffected,
src/package.json lines 1115 to 1117). -/
def deleteShape (r : RawResult) : ItemResult :=
  { columns := none, rows := none
  , rowsAffected := r.rowsAffected, lastInsertRowid := none }

/-- Response shape of the selectRows branch (columns and rows only,
src/package.json lines 1214 to 1217). -/
def selectShape (r : RawResult) : ItemResult :=
  { columns := some (normalizeColumns r.columns)
  , rows := some (r.rows.getD [])
  , rowsAffected := none, lastInsertRowid := none }

/- ===== Capability oracle and statement submission loop ===== -/

/-- The execution capability: the already-configured libsql client, seen
by this layer as a function from a statement to a raw result or an error
message. -/
abbrev Cap := Stmt → Except String RawResult

/-- Sequential submission loop shared by the row-mutation branches: each
statement is submitted in order, its raw result is shaped, and a client
failure aborts the remaining statements (handleDatabaseError throws). -/
def runStmts (cap : Cap) (shape : RawResult → ItemResult) :
    List Stmt → Except NodeError (List ItemResult)
  | [] => .ok []
  | s :: rest =>
    match cap s with
    | .error e => .error (.capability e)
    | .ok r =>
      match runStmts cap shape rest with
      | .error e => .error e
      | .ok more => .ok (shape r :: more)

/- ===== executeQuery (src/package.json lines 780 to 817) ===== -/

/-- The executeQuery branch: validate the query text, then submit it with
the user-supplied parameter values in order.  The first component is the
list of statements actually submitted to the client. -/
def runExecuteQuery (cap : Cap) (query : String) (params : List String) :
    List Stmt × Except NodeError ItemResult :=
  if isBlank query then
    ([], .error (.validation "SQL query cannot be empty"))
  else
    let stmt : Stmt := ⟨query, params.map JsValue.str⟩
    match cap stmt with
    | .error e => ([stmt], .error (.capability e))
    | .ok r => ([stmt], .ok (queryShape r))

/- ===== executeBatch (src/package.json lines 819 to 867) ===== -/

/-- One entry of the queries.queryValues collection. -/
structure BatchEntry where
  query : String
  parameters : String

/-- Comma-splitting of one batch entry parameter string: the TypeScript
expression parameters ? parameters.split(',').map(p => p.trim()) : []. -/
def parseParams (parameters : String) : List String :=
  if parameters == "" then [] else (jsSplitComma parameters).map jsTrim

/-- Statement built from one batch entry. -/
def batchStmt (e : BatchEntry) : Stmt :=
  ⟨e.query, (parseParams e.parameters).map JsValue.str⟩

/-- Loop body of the executeBatch branch: entries are processed in order;
an empty query text raises a validation error and a client failure is
wrapped as a capability error, either aborting the remaining entries.
The first component is the list of statements actually submitted. -/
def runExecuteBatchAux (cap : Cap) :
    List BatchEntry → List Stmt × Except NodeError (List ItemResult)
  | [] => ([], .ok [])
  | e :: rest =>
    if isBlank e.query then
      ([], .error (.validation "SQL query cannot be empty"))
    else
      match cap (batchStmt e) with
      | .error msg => ([batchStmt e], .error (.capability msg))
      | .ok r =>
        let tail := runExecuteBatchAux cap rest
        (batchStmt e :: tail.1,
          match tail.2 with
          | .error err => .error err
          | .ok more => .ok (queryShape r :: more))

/-- The executeBatch branch: an empty entry list is rejected before any
client call; otherwise the entries are processed sequentially. -/
def runExecuteBatch (cap : Cap) (queries : List BatchEntry) :
    List Stmt × Except NodeError (List ItemResult) :=
  if queries.length = 0 then
    ([], .error (.validation "At least one query is required for batch execution"))
  else runExecuteBatchAux cap queries

/- ===== Row chunking and input-item extraction ===== -/

/-- Fuel-indexed translation of the grouping loop
for (let j = 0; j < values.length; j += valuesPerRow) rows.push(slice);
each step takes the next k values as one row.  The fuel argument only
makes the recursion structural; chunkRows supplies enough fuel. -/
def chunkGo (k : Nat) : Nat → List String → List (List String)
  | _, [] => []
  | 0, _ :: _ => []
  | fuel + 1, v :: vs => ((v :: vs).take k) :: chunkGo k fuel ((v :: vs).drop k)

/-- Grouping of the flat manual value list into rows of k values each
(src/package.json lines 907 to 910 and 1023 to 1026). -/
def chunkRows (k : Nat) (vs : List String) : List (List String) :=
  chunkGo k vs.length vs

/-- Rows contributed by one rowData value (src/package.json lines 932 to
942): an array yields one row per entry, a plain object yields one row,
anything else contributes nothing; each row is the per-column
property lookup in column order, with no presence check. -/
def rowsOfRowData (columns : List String) (rowData : JsValue) : List (List JsValue) :=
  match rowData with
  | .arr entries => entries.map (fun e => columns.map (getProp e))
  | .obj fields => [columns.map (getProp (.obj fields))]
  | _ => []

/-- Input-items row extraction shared verbatim by the insertRows and
updateRows branches (src/package.json lines 915 to 943 and 1031 to 1059):
for each incoming item, follow itemsPath when it is non-empty (raising a
validation error when the property is undefined), then collect the rows
of the resulting rowData. -/
def extractRows (columns : List String) (itemsPath : String) :
    List JsValue → Except NodeError (List (List JsValue))
  | [] => .ok []
  | item :: rest =>
    match (if itemsPath ≠ "" then
        match getProp item itemsPath with
        | .jsUndefined => Except.error (NodeError.validation "Item path not found in input data")
        | rd => Except.ok rd
      else Except.ok item) with
    | .error e => .error e
    | .ok rowData =>
      match extractRows columns itemsPath rest with
      | .error e => .error e
      | .ok more => .ok (rowsOfRowData columns rowData ++ more)

/-- Data-source selector of the insertRows and updateRows branches. -/
inductive DataSource where
  | inputItems
  | manualInput

/- ===== insertRows (src/package.json lines 868 to 971) ===== -/

/-- Insert statement text INSERT INTO table (cols) VALUES (placeholders)
with one question-mark placeholder per column (lines 884 and 954). -/
def insertSql (table : String) (columns : List String) : String :=
  "INSERT INTO " ++ table ++ " (" ++ String.intercalate ", " columns ++
    ") VALUES (" ++ String.intercalate ", " (columns.map (fun _ => "?")) ++ ")"

/-- Statement plan of the insertRows branch: validation checks in source
order, row collection from the chosen data source, then one statement per
row, all sharing the same sql text. -/
def buildInsertPlan (table : String) (columns : List String) (dataSource : DataSource)
    (values : List String) (itemsPath : String) (items : List JsValue) :
    Except NodeError (List Stmt) :=
  if isBlank table then .error (.validation "Table name cannot be empty")
  else if columns.length = 0 then
    .error (.validation "At least one column must be selected")
  else
    match dataSource with
    | .manualInput =>
      if values.length = 0 then
        .error (.validation "No values provided for insert operation")
      else if values.length % columns.length ≠ 0 then
        .error (.validation "Values count is not a multiple of columns count")
      else
        .ok ((chunkRows columns.length values).map
          (fun row => ⟨insertSql table columns, row.map JsValue.str⟩))
    | .inputItems =>
      match extractRows columns itemsPath items with
      | .error e => .error e
      | .ok rows =>
        if rows.length = 0 then .error (.validation "No data found to insert")
        else .ok (rows.map (fun row => ⟨insertSql table columns, row⟩))

/-- The insertRows branch end to end: build the plan, then submit each
statement and keep only rowsAffected and lastInsertRowid per result. -/
def runInsertRows (cap : Cap) (table : String) (columns : List String)
    (dataSource : DataSource) (values : List String) (itemsPath : String)
    (items : List JsValue) : Except NodeError (List ItemResult) :=
  match buildInsertPlan table columns dataSource values itemsPath items with
  | .error e => .error e
  | .ok plan => runStmts cap insertShape plan

/- ===== updateRows (src/package.json lines 972 to 1086) ===== -/

/-- Update statement text UPDATE table SET col1 = ?, ... WHERE clause
(lines 1000 and 1070). -/
def updateSql (table : String) (columns : List String) (whereClause : String) : String :=
  "UPDATE " ++ table ++ " SET " ++
    String.intercalate ", " (columns.map (fun c => c ++ " = ?")) ++
    " WHERE " ++ whereClause

/-- Statement plan of the updateRows branch: validation checks in source
order, row collection as for insert, and per row the args are the row's
column values with the where parameters appended after them. -/
def buildUpdatePlan (table : String) (columns : List String) (whereClause : String)
    (whereArgs : List String) (dataSource : DataSource) (values : List String)
    (itemsPath : String) (items : List JsValue) : Except NodeError (List Stmt) :=
  if isBlank table then .error (.validation "Table name cannot be empty")
  else if columns.length = 0 then
    .error (.validation "At least one column must be selected")
  else if isBlank whereClause then
    .error (.validation "WHERE clause is required for update operations for safety")
  else
    match dataSource with
    | .manualInput =>
      if values.length = 0 then
        .error (.validation "No values provided for update operation")
      else if values.length % columns.length ≠ 0 then
        .error (.validation "Values count is not a multiple of columns count")
      else
        .ok ((chunkRows columns.length values).map
          (fun row => ⟨updateSql table columns whereClause,
            row.map JsValue.str ++ whereArgs.map JsValue.str⟩))
    | .inputItems =>
      match extractRows columns itemsPath items with
      | .error e => .error e
      | .ok rows =>
        if rows.length = 0 then .error (.validation "No data found to update")
        else .ok (rows.map (fun row =>
          ⟨updateSql table columns whereClause, row ++ whereArgs.map JsValue.str⟩))

/-- The updateRows branch end to end. -/
def runUpdateRows (cap : Cap) (table : String) (columns : List String)
    (whereClause : String) (whereArgs : List String) (dataSource : DataSource)
    (values : List String) (itemsPath : String) (items : List JsValue) :
    Except NodeError (List ItemResult) :=
  match buildUpdatePlan table columns whereClause whereArgs dataSource values itemsPath items with
  | .error e => .error e
  | .ok plan => runStmts cap updateShape plan

/- ===== deleteRows (src/package.json lines 1087 to 1120) ===== -/

/-- Statement of the deleteRows branch: DELETE FROM table WHERE clause
with the where parameters as args. -/
def buildDeletePlan (table : String) (whereClause : String) (whereArgs : List String) :
    Except NodeError Stmt :=
  if isBlank table then .error (.validation "Table name cannot be empty")
  else if isBlank whereClause then
    .error (.validation "WHERE clause is required for delete operations for safety")
  else .ok ⟨"DELETE FROM " ++ table ++ " WHERE " ++ whereClause,
    whereArgs.map JsValue.str⟩

/-- The deleteRows branch end to end (single statement). -/
def runDeleteRows (cap : Cap) (table : String) (whereClause : String)
    (whereArgs : List String) : Except NodeError ItemResult :=
  match buildDeletePlan table whereClause whereArgs with
  | .error e => .error e
  | .ok stmt =>
    match cap stmt with
    | .error e => .error (.capability e)
    | .ok r => .ok (deleteShape r)

/- ===== selectRows (src/package.json lines 1121 to 1220) ===== -/

/-- Parameters of the selectRows branch, in the order Turso.execute reads
them. -/
structure SelectDesc where
  table : String
  selectAllColumns : Bool
  columns : List String
  useWhere : Bool
  whereClauseSelect : String
  whereParamsSelect : List String
  useOrderBy : Bool
  orderBy : String
  orderDirection : String
  useLimit : Bool
  limit : Int
  offset : Int

/-- Column clause of the selectRows branch (src/package.json lines 1128
to 1141): the star wildcard when selectAllColumns is set, else the joined
column list, rejected when empty. -/
def columnsListOf (selectAllColumns : Bool) (columns : List String) :
    Except NodeError String :=
  if selectAllColumns then .ok "*"
  else if columns.length = 0 then
    .error (.validation "At least one column must be selected")
  else .ok (String.intercalate ", " columns)

/-- Where clause and args of the selectRows branch (src/package.json
lines 1143 to 1156). -/
def whereOf (useWhere : Bool) (whereClauseSelect : String)
    (whereParamsSelect : List String) : Except NodeError (String × List String) :=
  if useWhere then
    if isBlank whereClauseSelect then
      .error (.validation "WHERE clause cannot be empty when Use Where Clause is enabled")
    else .ok (whereClauseSelect, whereParamsSelect)
  else .ok ("", [])

/-- Order-by clause of the selectRows branch (src/package.json lines 1158
to 1170): the column and direction are interpolated directly after a
non-emptiness check. -/
def orderByClauseOf (useOrderBy : Bool) (orderBy orderDirection : String) :
    Except NodeError String :=
  if useOrderBy then
    if isBlank orderBy then
      .error (.validation "Order by column must be selected when Use Order By is enabled")
    else .ok (" ORDER BY " ++ orderBy ++ " " ++ orderDirection)
  else .ok ""

/-- Limit and offset clause of the selectRows branch (src/package.json
lines 1172 to 1188): the limit must be positive, the offset part appears
only when the offset is positive, and both are formatted as literals. -/
def limitOffsetClauseOf (useLimit : Bool) (limit offset : Int) :
    Except NodeError String :=
  if useLimit then
    if limit ≤ 0 then .error (.validation "Limit must be greater than 0")
    else .ok ((" LIMIT " ++ toString limit) ++
      (if offset > 0 then " OFFSET " ++ toString offset else ""))
  else .ok ""

/-- Statement of the selectRows branch, assembling the clauses in source
order (src/package.json lines 1121 to 1202). -/
def buildSelect (d : SelectDesc) : Except NodeError Stmt :=
  if isBlank d.table then .error (.validation "Table name cannot be empty")
  else
    match columnsListOf d.selectAllColumns d.columns with
    | .error e => .error e
    | .ok columnsList =>
      match whereOf d.useWhere d.whereClauseSelect d.whereParamsSelect with
      | .error e => .error e
      | .ok (whereClause, whereArgs) =>
        match orderByClauseOf d.useOrderBy d.orderBy d.orderDirection with
        | .error e => .error e
        | .ok orderByClause =>
          match limitOffsetClauseOf d.useLimit d.limit d.offset with
          | .error e => .error e
          | .ok limitOffsetClause =>
            .ok ⟨"SELECT " ++ columnsList ++ " FROM " ++ d.table ++
                  (if d.useWhere then " WHERE " ++ whereClause else "") ++
                  orderByClause ++ limitOffsetClause,
                whereArgs.map JsValue.str⟩

/-- The selectRows branch end to end. -/
def runSelectRows (cap : Cap) (d : SelectDesc) : Except NodeError ItemResult :=
  match buildSelect d with
  | .error e => .error e
  | .ok stmt =>
    match cap stmt with
    | .error e => .error (.capability e)
    | .ok r => .ok (selectShape r)

/- ===== describeTable (src/package.json lines 1237 to 1256) ===== -/

/-- Statement of the describeTable branch: the table name is interpolated
directly into PRAGMA table_info(...) after a non-emptiness check. -/
def buildDescribeTable (table : String) : Except NodeError Stmt :=
  if isBlank table then .error (.validation "Table name cannot be empty")
  else .ok ⟨"PRAGMA table_info(" ++ table ++ ")", []⟩

/- ===== Spec-side identifier validator ===== -/

/-- Identifier allow-list as worded by the spec glossary (letters, digits,
underscore, non-empty); declared only to state the identifier-validation
claim and compare it with what the code does, not translated from the
source. -/
def specIdentifierOk (s : String) : Bool :=
  s ≠ "" && s.data.all (fun c => c.isAlphanum || c = '_')

/- ===== Concrete sample data for witnesses ===== -/

/-- Sample raw client result used to instantiate theorems on concrete
inputs. -/
def rawSample : RawResult :=
  ⟨some [.str "c"], some [], some 1, some (.num 5)⟩

/-- Sample capability that answers every statement with rawSample. -/
def capSample : Cap := fun _ => .ok rawSample

/- ===== Helper lemmas about chunking and extraction ===== -/

theorem dvd_drop_length {k : Nat} (vs : List String) (hdvd : k ∣ vs.length) :
    k ∣ (vs.drop k).length := by
  rw [List.length_drop]
  exact Nat.dvd_sub' hdvd dvd_rfl

theorem chunkGo_length {k : Nat} (hk : 0 < k) :
    ∀ (fuel : Nat) (vs : List String), vs.length ≤ fuel → k ∣ vs.length →
      (chunkGo k fuel vs).length = vs.length / k := by
  intro fuel
  induction fuel with
  | zero =>
    intro vs hle _
    have hnil : vs = [] := List.eq_nil_of_length_eq_zero (Nat.le_zero.mp hle)
    subst hnil
    simp [chunkGo]
  | succ fuel ih =>
    intro vs hle hdvd
    match vs with
    | [] => simp [chunkGo]
    | v :: tl =>
      obtain ⟨m, hm⟩ := hdvd
      have hm0 : m ≠ 0 := by
        intro h0
        rw [h0, Nat.mul_zero] at hm
        exact absurd hm (by simp)
      have hmul : k * (m - 1) = k * m - k := by
        cases m with
        | zero => exact absurd rfl hm0
        | succ m2 => rw [Nat.succ_sub_one, Nat.mul_succ, Nat.add_sub_cancel]
      have hdrop : (List.drop k (v :: tl)).length = (v :: tl).length - k :=
        List.length_drop k (v :: tl)
      have hle2 : (List.drop k (v :: tl)).length ≤ fuel := by
        rw [hdrop]
        simp only [List.length_cons] at hle ⊢
        omega
      have hdvd2 : k ∣ (List.drop k (v :: tl)).length :=
        dvd_drop_length (v :: tl) ⟨m, hm⟩
      have hdivsub : (List.drop k (v :: tl)).length / k = m - 1 := by
        rw [hdrop, hm, ← hmul, Nat.mul_div_cancel_left _ hk]
      have hdivn : (v :: tl).length / k = m := by
        rw [hm, Nat.mul_div_cancel_left _ hk]
      have hmge : 1 ≤ m := Nat.one_le_iff_ne_zero.mpr hm0
      calc (chunkGo k (fuel + 1) (v :: tl)).length
          = (chunkGo k fuel (List.drop k (v :: tl))).length + 1 := by
            simp [chunkGo]
        _ = (m - 1) + 1 := by rw [ih _ hle2 hdvd2, hdivsub]
        _ = m := by omega
        _ = (v :: tl).length / k := hdivn.symm

theorem chunkGo_mem_length {k : Nat} (hk : 0 < k) :
    ∀ (fuel : Nat) (vs : List String), vs.length ≤ fuel → k ∣ vs.length →
      ∀ c ∈ chunkGo k fuel vs, c.length = k := by
  intro fuel
  induction fuel with
  | zero =>
    intro vs hle _ c hc
    have hnil : vs = [] := List.eq_nil_of_length_eq_zero (Nat.le_zero.mp hle)
    subst hnil
    simp [chunkGo] at hc
  | succ fuel ih =>
    intro vs hle hdvd c hc
    match vs with
    | [] => simp [chunkGo] at hc
    | v :: tl =>
      simp only [chunkGo, List.mem_cons] at hc
      rcases hc with hc | hc
      · subst hc
        have hkn : k ≤ (v :: tl).length := Nat.le_of_dvd (by simp) hdvd
        rw [List.length_take]
        omega
      · have hle2 : (List.drop k (v :: tl)).length ≤ fuel := by
          rw [List.length_drop]
          simp only [List.length_cons] at hle ⊢
          omega
        exact ih _ hle2 (dvd_drop_length (v :: tl) hdvd) c hc

theorem chunkGo_getElem {k : Nat} (hk : 0 < k) :
    ∀ (fuel : Nat) (vs : List String) (j : Nat), vs.length ≤ fuel → k ∣ vs.length →
      j < vs.length / k →
      (chunkGo k fuel vs)[j]? = some ((vs.drop (j * k)).take k) := by
  intro fuel
  induction fuel with
  | zero =>
    intro vs j hle _ hj
    have hnil : vs = [] := List.eq_nil_of_length_eq_zero (Nat.le_zero.mp hle)
    subst hnil
    simp at hj
  | succ fuel ih =>
    intro vs j hle hdvd hj
    match vs with
    | [] => simp at hj
    | v :: tl =>
      match j with
      | 0 =>
        simp [chunkGo]
      | j + 1 =>
        obtain ⟨m, hm⟩ := hdvd
        have hm0 : m ≠ 0 := by
          intro h0
          rw [h0, Nat.mul_zero] at hm
          exact absurd hm (by simp)
        have hmul : k * (m - 1) = k * m - k := by
          cases m with
          | zero => exact absurd rfl hm0
          | succ m2 => rw [Nat.succ_sub_one, Nat.mul_succ, Nat.add_sub_cancel]
        have hle2 : (List.drop k (v :: tl)).length ≤ fuel := by
          rw [List.length_drop]
          simp only [List.length_cons] at hle ⊢
          omega
        have hdvd2 : k ∣ (List.drop k (v :: tl)).length :=
          dvd_drop_length (v :: tl) ⟨m, hm⟩
        have hdivsub : (List.drop k (v :: tl)).length / k = m - 1 := by
          rw [List.length_drop, hm, ← hmul, Nat.mul_div_cancel_left _ hk]
        have hdivn : (v :: tl).length / k = m := by
          rw [hm, Nat.mul_div_cancel_left _ hk]
        have hj2 : j < (List.drop k (v :: tl)).length / k := by
          rw [hdivsub]
          rw [hdivn] at hj
          omega
        have harith : k + j * k = (j + 1) * k := by ring
        simp only [chunkGo, List.getElem?_cons_succ]
        rw [ih _ j hle2 hdvd2 hj2, List.drop_drop, harith]

theorem rowsOfRowData_length (columns : List String) (rd : JsValue) :
    ∀ row ∈ rowsOfRowData columns rd, row.length = columns.length := by
  intro row hrow
  match rd with
  | .arr entries =>
    simp only [rowsOfRowData] at hrow
    obtain ⟨e, _, rfl⟩ := List.mem_map.mp hrow
    simp
  | .obj fields =>
    simp only [rowsOfRowData, List.mem_singleton] at hrow
    subst hrow
    simp
  | .jsUndefined => simp [rowsOfRowData] at hrow
  | .jnull => simp [rowsOfRowData] at hrow
  | .str s => simp [rowsOfRowData] at hrow
  | .num n => simp [rowsOfRowData] at hrow

theorem extractRows_row_length {columns : List String} {itemsPath : String} :
    ∀ {items : List JsValue} {rows : List (List JsValue)},
      extractRows columns itemsPath items = .ok rows →
      ∀ row ∈ rows, row.length = columns.length := by
  intro items
  induction items with
  | nil =>
    intro rows h row hrow
    simp only [extractRows, Except.ok.injEq] at h
    subst h
    simp at hrow
  | cons item rest ih =>
    intro rows h row hrow
    simp only [extractRows] at h
    split at h
    · exact absurd h (by simp)
    · split at h
      · exact absurd h (by simp)
      · simp only [Except.ok.injEq] at h
        subst h
        rcases List.mem_append.mp hrow with hmem | hmem
        · exact rowsOfRowData_length _ _ row hmem
        · exact ih (by assumption) row hmem

theorem runStmts_shape {cap : Cap} {shape : RawResult → ItemResult} :
    ∀ {stmts : List Stmt} {results : List ItemResult},
      runStmts cap shape stmts = .ok results →
      ∀ res ∈ results, ∃ raw, res = shape raw := by
  intro stmts
  induction stmts with
  | nil =>
    intro results h res hres
    simp only [runStmts, Except.ok.injEq] at h
    subst h
    simp at hres
  | cons s rest ih =>
    intro results h res hres
    simp only [runStmts] at h
    cases hcap : cap s with
    | error e => rw [hcap] at h; exact absurd h (by simp)
    | ok r =>
      rw [hcap] at h
      cases hrec : runStmts cap shape rest with
      | error e => rw [hrec] at h; exact absurd h (by simp)
      | ok more =>
        rw [hrec] at h
        simp only [Except.ok.injEq] at h
        subst h
        rcases List.mem_cons.mp hres with rfl | hmem
        · exact ⟨r, rfl⟩
        · exact ih hrec res hmem

/- ===== Claim C1 ===== -/

/-- C1 counterexample: with table t, two columns and an empty manual value
list we have n mod k = 0, yet the insertRows build is rejected with a
validation error instead of succeeding, refuting the claimed equivalence
at n = 0. -/
theorem insertRows_manual_empty_values_rejected :
    buildInsertPlan "t" ["id", "name"] .manualInput [] "" [] =
      .error (.validation "No values provided for insert operation") ∧
    ([] : List String).length % (["id", "name"] : List String).length = 0 :=
  ⟨rfl, rfl⟩

/-- C1 (amended): for every manual-mode InsertRows descriptor with a
non-blank table and a non-empty column list of length k and a flat value
list of length n, building succeeds iff n is positive and n mod k = 0, in
which case the plan has exactly n / k entries, entry j carrying the j-th
group of k consecutive values over the shared INSERT sql text; the
round-trip scenario on table t with columns id, name and values 1, a, 2, b
yields the two expected statements. -/
theorem insertRows_manual_grouping :
    (∀ (table : String) (columns values : List String),
      isBlank table = false → columns ≠ [] →
      (((∃ plan, buildInsertPlan table columns .manualInput values "" [] = .ok plan) ↔
          values ≠ [] ∧ values.length % columns.length = 0) ∧
        ∀ plan, buildInsertPlan table columns .manualInput values "" [] = .ok plan →
          plan.length = values.length / columns.length ∧
          ∀ j, j < values.length / columns.length →
            plan[j]? = some ⟨insertSql table columns,
              ((values.drop (j * columns.length)).take columns.length).map JsValue.str⟩)) ∧
    buildInsertPlan "t" ["id", "name"] .manualInput ["1", "a", "2", "b"] "" [] =
      .ok [⟨"INSERT INTO t (id, name) VALUES (?, ?)", [.str "1", .str "a"]⟩,
           ⟨"INSERT INTO t (id, name) VALUES (?, ?)", [.str "2", .str "b"]⟩] := by
  constructor
  · intro table columns values htable hcols
    have hkne : columns.length ≠ 0 :=
      Nat.pos_iff_ne_zero.mp (List.length_pos.mpr hcols)
    have hk : 0 < columns.length := Nat.pos_of_ne_zero hkne
    have hred : buildInsertPlan table columns .manualInput values "" [] =
        (if values.length = 0 then
          Except.error (NodeError.validation "No values provided for insert operation")
        else if values.length % columns.length ≠ 0 then
          Except.error (NodeError.validation "Values count is not a multiple of columns count")
        else Except.ok ((chunkRows columns.length values).map
          (fun row => ⟨insertSql table columns, row.map JsValue.str⟩))) := by
      unfold buildInsertPlan
      rw [if_neg (by simp [htable]), if_neg hkne]
    by_cases h0 : values.length = 0
    · rw [if_pos h0] at hred
      refine ⟨⟨?_, ?_⟩, ?_⟩
      · rintro ⟨plan, hplan⟩
        rw [hred] at hplan
        exact absurd hplan (by simp)
      · rintro ⟨hne, _⟩
        exact absurd (List.length_eq_zero.mp h0) hne
      · intro plan hplan
        rw [hred] at hplan
        exact absurd hplan (by simp)
    · rw [if_neg h0] at hred
      by_cases hmod : values.length % columns.length = 0
      · rw [if_neg (fun hC => hC hmod)] at hred
        have hdvd : columns.length ∣ values.length := Nat.dvd_of_mod_eq_zero hmod
        refine ⟨⟨fun _ => ⟨fun hnil => h0 (by rw [hnil]; rfl), hmod⟩, fun _ => ⟨_, hred⟩⟩, ?_⟩
        intro plan hplan
        rw [hred] at hplan
        simp only [Except.ok.injEq] at hplan
        subst hplan
        constructor
        · rw [List.length_map]
          simp only [chunkRows]
          exact chunkGo_length hk values.length values le_rfl hdvd
        · intro j hj
          rw [List.getElem?_map]
          simp only [chunkRows]
          rw [chunkGo_getElem hk values.length values j le_rfl hdvd hj]
          rfl
      · rw [if_pos hmod] at hred
        refine ⟨⟨?_, ?_⟩, ?_⟩
        · rintro ⟨plan, hplan⟩
          rw [hred] at hplan
          exact absurd hplan (by simp)
        · rintro ⟨_, hmodeq⟩
          exact absurd hmodeq hmod
        · intro plan hplan
          rw [hred] at hplan
          exact absurd hplan (by simp)
  · rfl

/-- C1 witness: the amended grouping theorem applied to the concrete
round-trip descriptor. -/
theorem insertRows_manual_grouping_witness :
    ∃ plan, buildInsertPlan "t" ["id", "name"] .manualInput ["1", "a", "2", "b"] "" [] =
      .ok plan :=
  ((insertRows_manual_grouping.1 "t" ["id", "name"] ["1", "a", "2", "b"]
      (by rfl) (by simp)).1).mpr ⟨by simp, by rfl⟩

/- ===== Claim C2 ===== -/

/-- C2: every statement built by the updateRows branch, in manual-input
as well as input-items mode, has the sql text UPDATE table SET col = ?
pairs WHERE clause, and its args list has length k + m and consists of the
row's k column values followed by the m where parameters; the concrete
scenario shows the exact text and ordering. -/
theorem updateRows_args_order :
    (∀ (table : String) (columns : List String) (whereClause : String)
        (whereArgs : List String) (ds : DataSource) (values : List String)
        (itemsPath : String) (items : List JsValue) (plan : List Stmt),
      buildUpdatePlan table columns whereClause whereArgs ds values itemsPath items =
        .ok plan →
      ∀ s ∈ plan,
        s.sql = updateSql table columns whereClause ∧
        s.args.length = columns.length + whereArgs.length ∧
        ∃ row, row.length = columns.length ∧
          s.args = row ++ whereArgs.map JsValue.str) ∧
    buildUpdatePlan "t" ["a", "b"] "id = ?" ["5"] .manualInput ["x", "y"] "" [] =
      .ok [⟨"UPDATE t SET a = ?, b = ? WHERE id = ?",
            [.str "x", .str "y", .str "5"]⟩] := by
  constructor
  · intro table columns whereClause whereArgs ds values itemsPath items plan hok s hs
    simp only [buildUpdatePlan] at hok
    by_cases hbt : isBlank table = true
    · rw [if_pos hbt] at hok
      exact absurd hok (by simp)
    · rw [if_neg hbt] at hok
      by_cases hc0 : columns.length = 0
      · rw [if_pos hc0] at hok
        exact absurd hok (by simp)
      · rw [if_neg hc0] at hok
        by_cases hbw : isBlank whereClause = true
        · rw [if_pos hbw] at hok
          exact absurd hok (by simp)
        · rw [if_neg hbw] at hok
          cases ds with
          | manualInput =>
            by_cases h0 : values.length = 0
            · rw [if_pos h0] at hok
              exact absurd hok (by simp)
            · rw [if_neg h0] at hok
              by_cases hmod : values.length % columns.length = 0
              · rw [if_neg (fun hC => hC hmod)] at hok
                simp only [Except.ok.injEq] at hok
                subst hok
                obtain ⟨row, hrowmem, rfl⟩ := List.mem_map.mp hs
                have hk : 0 < columns.length := Nat.pos_of_ne_zero hc0
                have hrowlen : row.length = columns.length := by
                  simp only [chunkRows] at hrowmem
                  exact chunkGo_mem_length hk values.length values le_rfl
                    (Nat.dvd_of_mod_eq_zero hmod) row hrowmem
                exact ⟨rfl, by simp [hrowlen],
                  ⟨row.map JsValue.str, by simp [hrowlen], rfl⟩⟩
              · rw [if_pos hmod] at hok
                exact absurd hok (by simp)
          | inputItems =>
            cases hext : extractRows columns itemsPath items with
            | error e =>
              rw [hext] at hok
              exact absurd hok (by simp)
            | ok rows =>
              rw [hext] at hok
              dsimp only at hok
              by_cases hr0 : rows.length = 0
              · rw [if_pos hr0] at hok
                exact absurd hok (by simp)
              · rw [if_neg hr0] at hok
                simp only [Except.ok.injEq] at hok
                subst hok
                obtain ⟨row, hrowmem, rfl⟩ := List.mem_map.mp hs
                have hrowlen : row.length = columns.length :=
                  extractRows_row_length hext row hrowmem
                exact ⟨rfl, by simp [hrowlen], ⟨row, hrowlen, rfl⟩⟩
  · rfl

/-- C2 witness: the args-order theorem applied to the concrete update
scenario statement. -/
theorem updateRows_args_order_witness :
    (Stmt.mk "UPDATE t SET a = ?, b = ? WHERE id = ?"
      [.str "x", .str "y", .str "5"]).args.length =
      (["a", "b"] : List String).length + (["5"] : List String).length := by
  have h := updateRows_args_order.1 "t" ["a", "b"] "id = ?" ["5"] .manualInput
    ["x", "y"] "" []
    [⟨"UPDATE t SET a = ?, b = ? WHERE id = ?", [.str "x", .str "y", .str "5"]⟩]
    (by rfl)
    ⟨"UPDATE t SET a = ?, b = ? WHERE id = ?", [.str "x", .str "y", .str "5"]⟩
    (by simp)
  exact h.2.1

/- ===== Claim C3 ===== -/

/-- C3 counterexample: an order-by column and a DescribeTable table name
that both fail the spec's identifier allow-list are nevertheless accepted,
and the statement text containing them verbatim is produced, refuting the
claim that such descriptors are rejected before any statement text
containing the identifier exists. -/
theorem identifier_interpolation_unvalidated :
    specIdentifierOk "x); DROP TABLE users; --" = false ∧
    buildDescribeTable "x); DROP TABLE users; --" =
      .ok ⟨"PRAGMA table_info(x); DROP TABLE users; --)", []⟩ ∧
    specIdentifierOk "name; DROP TABLE users; --" = false ∧
    buildSelect ⟨"t", true, [], false, "", [], true,
        "name; DROP TABLE users; --", "ASC", false, 0, 0⟩ =
      .ok ⟨"SELECT * FROM t ORDER BY name; DROP TABLE users; -- ASC", []⟩ :=
  ⟨by decide, rfl, by decide, rfl⟩

/-- C3 (amended): the only check applied to the order-by column and to the
DescribeTable table name is non-emptiness after trimming; every non-blank
string, identifier-shaped or not, is interpolated verbatim into the
statement text with no allow-list or identifier-syntax validation. -/
theorem identifier_only_blank_checked :
    (∀ table : String, isBlank table = false →
      buildDescribeTable table = .ok ⟨"PRAGMA table_info(" ++ table ++ ")", []⟩) ∧
    (∀ table orderBy dir : String, isBlank table = false → isBlank orderBy = false →
      buildSelect ⟨table, true, [], false, "", [], true, orderBy, dir, false, 0, 0⟩ =
        .ok ⟨"SELECT * FROM " ++ table ++ " ORDER BY " ++ orderBy ++ " " ++ dir, []⟩) := by
  constructor
  · intro table hb
    simp [buildDescribeTable, hb]
  · intro table orderBy dir hb hob
    have hlit : ("SELECT " ++ "*" ++ " FROM " : String) = "SELECT * FROM " := rfl
    simp only [buildSelect, columnsListOf, whereOf, orderByClauseOf,
      limitOffsetClauseOf, hb, hob, Bool.false_eq_true, if_false, if_true]
    rw [← hlit]
    simp [String.append_assoc, String.append_empty]

/-- C3 witness: the amended theorem applied to a concrete non-identifier
table name. -/
theorem identifier_only_blank_checked_witness :
    buildDescribeTable "users; --" = .ok ⟨"PRAGMA table_info(users; --)", []⟩ := by
  have h := identifier_only_blank_checked.1 "users; --" rfl
  exact h

/- ===== Claim C4 ===== -/

/-- C4: the result normalizer is total over every combination of present
and absent optional fields: string column descriptors are kept, object
descriptors are replaced by their name, a missing columns or rows field
becomes the empty sequence, and rowsAffected and lastInsertRowid are
passed through unchanged (staying absent when absent). -/
theorem normalizeResult_total_shape :
    ∀ r : RawResult,
      (r.columns = none → (normalizeResult r).columns = []) ∧
      (∀ cs, r.columns = some cs → (normalizeResult r).columns = cs.map columnName) ∧
      (∀ s, columnName (.str s) = s) ∧
      (∀ n, columnName (.obj n) = n) ∧
      (r.rows = none → (normalizeResult r).rows = []) ∧
      (∀ rs, r.rows = some rs → (normalizeResult r).rows = rs) ∧
      (normalizeResult r).rowsAffected = r.rowsAffected ∧
      (normalizeResult r).lastInsertRowid = r.lastInsertRowid := by
  intro r
  refine ⟨?_, ?_, fun s => rfl, fun n => rfl, ?_, ?_, rfl, rfl⟩
  · intro h
    simp [normalizeResult, normalizeColumns, h]
  · intro cs h
    simp [normalizeResult, normalizeColumns, h]
  · intro h
    simp [normalizeResult, h]
  · intro rs h
    simp [normalizeResult, h]

/-- C4 witness: the normalizer shape theorem applied to a concrete sparse
raw result with mixed column descriptor forms. -/
theorem normalizeResult_total_shape_witness :
    (normalizeResult ⟨some [.str "a", .obj "b"], none, some 3, none⟩).columns =
      ["a", "b"] ∧
    (normalizeResult ⟨some [.str "a", .obj "b"], none, some 3, none⟩).rows = [] := by
  have h := normalizeResult_total_shape ⟨some [.str "a", .obj "b"], none, some 3, none⟩
  exact ⟨h.2.1 [.str "a", .obj "b"] rfl, h.2.2.2.2.1 rfl⟩

/- ===== Claim C5 ===== -/

theorem runExecuteBatchAux_append_error {cap : Cap} :
    ∀ (pre suffix : List BatchEntry) (subs : List Stmt) (err : NodeError),
      (∀ e ∈ pre, isBlank e.query = false ∧ ∃ r, cap (batchStmt e) = .ok r) →
      runExecuteBatchAux cap suffix = (subs, .error err) →
      runExecuteBatchAux cap (pre ++ suffix) =
        (pre.map batchStmt ++ subs, .error err) := by
  intro pre
  induction pre with
  | nil =>
    intro suffix subs err _ h
    simpa using h
  | cons e pre ih =>
    intro suffix subs err hpre h
    obtain ⟨hbe, r, hr⟩ := hpre e (by simp)
    have hrest := ih suffix subs err (fun x hx => hpre x (by simp [hx])) h
    simp only [List.cons_append, runExecuteBatchAux]
    rw [if_neg (by simp [hbe]), hr]
    simp only [List.append_eq]
    rw [hrest]
    simp

/-- C5: an empty batch list is rejected with a validation error before any
capability call; when the first invalid entry (empty query text) sits
after a prefix of valid, successfully executed entries, the batch stops
with a validation error having submitted exactly that prefix; and when an
entry's client call fails, the batch stops there, having submitted the
prefix and the failing statement and nothing after it. -/
theorem executeBatch_validation_abort :
    (∀ cap : Cap, runExecuteBatch cap [] =
      ([], .error (.validation "At least one query is required for batch execution"))) ∧
    (∀ (cap : Cap) (pre : List BatchEntry) (bad : BatchEntry) (rest : List BatchEntry),
      isBlank bad.query = true →
      (∀ e ∈ pre, isBlank e.query = false ∧ ∃ r, cap (batchStmt e) = .ok r) →
      runExecuteBatch cap (pre ++ bad :: rest) =
        (pre.map batchStmt, .error (.validation "SQL query cannot be empty"))) ∧
    (∀ (cap : Cap) (pre : List BatchEntry) (bad : BatchEntry) (rest : List BatchEntry)
        (msg : String),
      (∀ e ∈ pre, isBlank e.query = false ∧ ∃ r, cap (batchStmt e) = .ok r) →
      isBlank bad.query = false →
      cap (batchStmt bad) = .error msg →
      runExecuteBatch cap (pre ++ bad :: rest) =
        (pre.map batchStmt ++ [batchStmt bad], .error (.capability msg))) := by
  refine ⟨fun cap => rfl, ?_, ?_⟩
  · intro cap pre bad rest hbad hpre
    have hsuffix : runExecuteBatchAux cap (bad :: rest) =
        ([], .error (.validation "SQL query cannot be empty")) := by
      simp only [runExecuteBatchAux]
      rw [if_pos hbad]
    have hall := runExecuteBatchAux_append_error pre (bad :: rest) [] _ hpre hsuffix
    simp only [runExecuteBatch]
    rw [if_neg (by simp)]
    simpa using hall
  · intro cap pre bad rest msg hpre hbadq hcap
    have hsuffix : runExecuteBatchAux cap (bad :: rest) =
        ([batchStmt bad], .error (.capability msg)) := by
      simp only [runExecuteBatchAux]
      rw [if_neg (by simp [hbadq]), hcap]
    have hall := runExecuteBatchAux_append_error pre (bad :: rest) [batchStmt bad] _
      hpre hsuffix
    simp only [runExecuteBatch]
    rw [if_neg (by simp)]
    exact hall

/-- C5 witness: a concrete batch with one valid entry followed by an
empty-query entry aborts at the invalid entry having submitted only the
first statement. -/
theorem executeBatch_validation_abort_witness :
    runExecuteBatch capSample [⟨"q1", ""⟩, ⟨"", ""⟩, ⟨"q3", ""⟩] =
      ([⟨"q1", []⟩], .error (.validation "SQL query cannot be empty")) := by
  have hpre : ∀ e ∈ [(⟨"q1", ""⟩ : BatchEntry)],
      isBlank e.query = false ∧ ∃ r, capSample (batchStmt e) = .ok r := by
    intro e he
    simp only [List.mem_singleton] at he
    subst he
    exact ⟨rfl, ⟨rawSample, rfl⟩⟩
  exact executeBatch_validation_abort.2.1 capSample [⟨"q1", ""⟩] ⟨"", ""⟩
    [⟨"q3", ""⟩] rfl hpre

/- ===== Claim C6 ===== -/

/-- C6: when the query text trims to the empty string, executeQuery fails
with a validation error before any capability call; otherwise the single
submitted statement carries the user text unchanged as sql and the
user-supplied parameter values, in order, as args. -/
theorem executeQuery_passthrough :
    (∀ (cap : Cap) (query : String) (params : List String), jsTrim query = "" →
      runExecuteQuery cap query params =
        ([], .error (.validation "SQL query cannot be empty"))) ∧
    (∀ (cap : Cap) (query : String) (params : List String), jsTrim query ≠ "" →
      (runExecuteQuery cap query params).1 = [⟨query, params.map JsValue.str⟩]) := by
  constructor
  · intro cap query params htrim
    have hb : isBlank query = true := by
      simp [isBlank, htrim]
    simp [runExecuteQuery, hb]
  · intro cap query params htrim
    have hb : isBlank query = false := by
      simp only [isBlank, Bool.or_eq_false_iff]
      constructor
      · rw [beq_eq_false_iff_ne]
        intro hq
        subst hq
        exact htrim rfl
      · rw [beq_eq_false_iff_ne]
        exact htrim
    simp only [runExecuteQuery, hb, Bool.false_eq_true, if_false]
    cases hcap : cap ⟨query, params.map JsValue.str⟩ <;> simp [hcap]

/-- C6 witness: the passthrough theorem applied to a blank and a concrete
non-blank query. -/
theorem executeQuery_passthrough_witness :
    runExecuteQuery capSample "  " [] =
      ([], .error (.validation "SQL query cannot be empty")) ∧
    (runExecuteQuery capSample "SELECT 1" ["x"]).1 =
      [⟨"SELECT 1", [.str "x"]⟩] :=
  ⟨executeQuery_passthrough.1 capSample "  " [] rfl,
   executeQuery_passthrough.2 capSample "SELECT 1" ["x"] (by decide)⟩

/- ===== Claim C7 ===== -/

/-- C7: with the limit option enabled, a limit at most zero is rejected
with a validation error; with a positive limit the statement text ends
with a LIMIT literal followed by an OFFSET literal exactly when the offset
is positive, both formatted into the text and never added to the
positional args; the concrete scenario with offset zero has no OFFSET
clause. -/
theorem selectRows_limit_offset :
    (∀ (table wc : String) (columns wps : List String) (limit offset : Int),
      isBlank table = false → columns ≠ [] → isBlank wc = false →
      ((limit ≤ 0 →
        buildSelect ⟨table, false, columns, true, wc, wps, false, "", "",
            true, limit, offset⟩ =
          .error (.validation "Limit must be greater than 0")) ∧
       (0 < limit →
        buildSelect ⟨table, false, columns, true, wc, wps, false, "", "",
            true, limit, offset⟩ =
          .ok ⟨"SELECT " ++ String.intercalate ", " columns ++ " FROM " ++ table ++
                " WHERE " ++ wc ++ " LIMIT " ++ toString limit ++
                (if offset > 0 then " OFFSET " ++ toString offset else ""),
              wps.map JsValue.str⟩))) ∧
    buildSelect ⟨"t", false, ["a"], false, "", [], false, "", "", true, 10, 0⟩ =
      .ok ⟨"SELECT a FROM t LIMIT 10", []⟩ := by
  constructor
  · intro table wc columns wps limit offset hb hcols hwc
    have hkne : columns.length ≠ 0 :=
      Nat.pos_iff_ne_zero.mp (List.length_pos.mpr hcols)
    constructor
    · intro hle
      simp [buildSelect, columnsListOf, whereOf, orderByClauseOf,
        limitOffsetClauseOf, hb, hkne, hwc, hle]
    · intro hpos
      have hnle : ¬limit ≤ 0 := not_le.mpr hpos
      simp only [buildSelect, columnsListOf, whereOf, orderByClauseOf,
        limitOffsetClauseOf, hb, hkne, hwc, hnle, Bool.false_eq_true, if_false,
        if_true, ite_false, ite_true]
      simp [String.append_assoc, String.append_empty]
  · rfl

/-- C7 witness: the limit theorem applied to a concrete positive limit and
offset. -/
theorem selectRows_limit_offset_witness :
    buildSelect ⟨"t", false, ["a"], true, "id = ?", ["7"], false, "", "",
        true, 5, 2⟩ =
      .ok ⟨"SELECT a FROM t WHERE id = ? LIMIT 5 OFFSET 2", [.str "7"]⟩ := by
  have h := (selectRows_limit_offset.1 "t" "id = ?" ["a"] ["7"] 5 2 rfl
    (by simp) rfl).2 (by decide)
  exact h

/- ===== Claim C8 ===== -/

/-- C8: with the select-all-columns flag true the column clause is exactly
the star wildcard regardless of the column list; with the flag false an
empty column list is rejected with a validation error and a non-empty one
yields the columns joined with comma-space; the full select statement with
the flag set selects star from the table. -/
theorem selectRows_column_clause :
    (∀ columns : List String, columnsListOf true columns = .ok "*") ∧
    (columnsListOf false [] =
      .error (.validation "At least one column must be selected")) ∧
    (∀ columns : List String, columns ≠ [] →
      columnsListOf false columns = .ok (String.intercalate ", " columns)) ∧
    (∀ (table : String) (columns : List String), isBlank table = false →
      buildSelect ⟨table, true, columns, false, "", [], false, "", "", false, 0, 0⟩ =
        .ok ⟨"SELECT * FROM " ++ table, []⟩) := by
  refine ⟨fun columns => rfl, rfl, ?_, ?_⟩
  · intro columns hne
    have h0 : columns.length ≠ 0 :=
      Nat.pos_iff_ne_zero.mp (List.length_pos.mpr hne)
    simp [columnsListOf, h0]
  · intro table columns hb
    have hlit : ("SELECT " ++ "*" ++ " FROM " : String) = "SELECT * FROM " := rfl
    simp only [buildSelect, columnsListOf, whereOf, orderByClauseOf,
      limitOffsetClauseOf, hb, Bool.false_eq_true, if_false, if_true]
    rw [← hlit]
    simp [String.append_assoc, String.append_empty]

/-- C8 witness: the column clause theorem applied to concrete column lists
and a concrete table. -/
theorem selectRows_column_clause_witness :
    columnsListOf false ["a", "b"] = .ok "a, b" ∧
    buildSelect ⟨"t", true, ["x"], false, "", [], false, "", "", false, 0, 0⟩ =
      .ok ⟨"SELECT * FROM t", []⟩ :=
  ⟨selectRows_column_clause.2.2.1 ["a", "b"] (by simp),
   selectRows_column_clause.2.2.2 "t" ["x"] rfl⟩

/- ===== Claim C9 ===== -/

theorem getProp_missing {fields : List (String × JsValue)} {c : String}
    (h : ∀ f ∈ fields, f.1 ≠ c) : getProp (.obj fields) c = .jsUndefined := by
  have hnone : fields.find? (fun f => f.1 == c) = none := by
    rw [List.find?_eq_none]
    intro f hf
    simpa using h f hf
  simp [getProp, hnone]

/-- C9: in input-items mode, row values are extracted by bare column-name
lookup with no presence check: for a record lacking the selected column at
position p, both insertRows and updateRows still build successfully, the
built row carries the undefined value at position p, and the statement is
still submitted to the capability with no validation error. -/
theorem inputItems_missing_column_undefined :
    (∀ (table : String) (columns : List String) (fields : List (String × JsValue))
        (p : Nat) (c : String),
      isBlank table = false → columns ≠ [] → columns[p]? = some c →
      (∀ f ∈ fields, f.1 ≠ c) →
      buildInsertPlan table columns .inputItems [] "data"
          [.obj [("data", .obj fields)]] =
        .ok [⟨insertSql table columns, columns.map (getProp (.obj fields))⟩] ∧
      (columns.map (getProp (.obj fields)))[p]? = some .jsUndefined ∧
      runInsertRows capSample table columns .inputItems [] "data"
          [.obj [("data", .obj fields)]] = .ok [insertShape rawSample]) ∧
    (∀ (table whereClause : String) (columns whereArgs : List String)
        (fields : List (String × JsValue)) (p : Nat) (c : String),
      isBlank table = false → columns ≠ [] → isBlank whereClause = false →
      columns[p]? = some c → (∀ f ∈ fields, f.1 ≠ c) →
      buildUpdatePlan table columns whereClause whereArgs .inputItems [] "data"
          [.obj [("data", .obj fields)]] =
        .ok [⟨updateSql table columns whereClause,
              columns.map (getProp (.obj fields)) ++ whereArgs.map JsValue.str⟩]) := by
  constructor
  · intro table columns fields p c htable hcols hp hmiss
    have hkne : columns.length ≠ 0 :=
      Nat.pos_iff_ne_zero.mp (List.length_pos.mpr hcols)
    have hbuild : buildInsertPlan table columns .inputItems [] "data"
        [.obj [("data", .obj fields)]] =
        .ok [⟨insertSql table columns, columns.map (getProp (.obj fields))⟩] := by
      unfold buildInsertPlan
      rw [if_neg (by simp [htable]), if_neg hkne]
      rfl
    refine ⟨hbuild, ?_, ?_⟩
    · rw [List.getElem?_map, hp]
      simp [getProp_missing hmiss]
    · simp only [runInsertRows]
      rw [hbuild]
      rfl
  · intro table whereClause columns whereArgs fields p c htable hcols hwc hp hmiss
    have hkne : columns.length ≠ 0 :=
      Nat.pos_iff_ne_zero.mp (List.length_pos.mpr hcols)
    unfold buildUpdatePlan
    rw [if_neg (by simp [htable]), if_neg hkne, if_neg (by simp [hwc])]
    rfl

/-- C9 witness: the missing-column theorem applied to a concrete record
that has an id field but no name field. -/
theorem inputItems_missing_column_undefined_witness :
    buildInsertPlan "t" ["id", "name"] .inputItems [] "data"
        [.obj [("data", .obj [("id", .num 1)])]] =
      .ok [⟨insertSql "t" ["id", "name"],
            ["id", "name"].map (getProp (.obj [("id", .num 1)]))⟩] ∧
    (["id", "name"].map (getProp (.obj [("id", JsValue.num 1)])))[1]? =
      some JsValue.jsUndefined := by
  have h := inputItems_missing_column_undefined.1 "t" ["id", "name"]
    [("id", .num 1)] 1 "name" rfl (by simp) rfl (by simp)
  exact ⟨h.1, h.2.1⟩

/- ===== Claim C10 ===== -/

theorem runExecuteBatchAux_shape {cap : Cap} :
    ∀ {queries : List BatchEntry} {results : List ItemResult},
      (runExecuteBatchAux cap queries).2 = .ok results →
      ∀ res ∈ results, ∃ raw, res = queryShape raw := by
  intro queries
  induction queries with
  | nil =>
    intro results h res hres
    simp only [runExecuteBatchAux, Except.ok.injEq] at h
    subst h
    simp at hres
  | cons e rest ih =>
    intro results h res hres
    simp only [runExecuteBatchAux] at h
    by_cases hbe : isBlank e.query = true
    · rw [if_pos hbe] at h
      exact absurd h (by simp)
    · rw [if_neg hbe] at h
      cases hcap : cap (batchStmt e) with
      | error msg =>
        rw [hcap] at h
        exact absurd h (by simp)
      | ok r =>
        rw [hcap] at h
        cases hr : runExecuteBatchAux cap rest with
        | mk subs res2 =>
          rw [hr] at h
          cases res2 with
          | error err => simp at h
          | ok more =>
            have h2 : (runExecuteBatchAux cap rest).2 = Except.ok more := by
              rw [hr]
            simp only [Except.ok.injEq] at h
            subst h
            rcases List.mem_cons.mp hres with rfl | hmem
            · exact ⟨r, rfl⟩
            · exact ih h2 res hmem

/-- C10: every per-statement result of insertRows carries no columns and
no rows keys; every updateRows result and the deleteRows result
additionally carry no lastInsertRowid; while every successful result of
selectRows, executeQuery and executeBatch carries both a columns and a
rows sequence, so the full normalized shape is produced only by those
three operations. -/
theorem mutation_result_shapes :
    (∀ (cap : Cap) (table : String) (columns : List String) (ds : DataSource)
        (values : List String) (itemsPath : String) (items : List JsValue)
        (results : List ItemResult),
      runInsertRows cap table columns ds values itemsPath items = .ok results →
      ∀ res ∈ results, res.columns = none ∧ res.rows = none) ∧
    (∀ (cap : Cap) (table : String) (columns : List String) (whereClause : String)
        (whereArgs : List String) (ds : DataSource) (values : List String)
        (itemsPath : String) (items : List JsValue) (results : List ItemResult),
      runUpdateRows cap table columns whereClause whereArgs ds values itemsPath items =
        .ok results →
      ∀ res ∈ results, res.columns = none ∧ res.rows = none ∧
        res.lastInsertRowid = none) ∧
    (∀ (cap : Cap) (table whereClause : String) (whereArgs : List String)
        (res : ItemResult),
      runDeleteRows cap table whereClause whereArgs = .ok res →
      res.columns = none ∧ res.rows = none ∧ res.lastInsertRowid = none) ∧
    (∀ (cap : Cap) (d : SelectDesc) (res : ItemResult),
      runSelectRows cap d = .ok res →
      (∃ cs, res.columns = some cs) ∧ (∃ rs, res.rows = some rs) ∧
        res.rowsAffected = none ∧ res.lastInsertRowid = none) ∧
    (∀ (cap : Cap) (query : String) (params : List String) (res : ItemResult),
      (runExecuteQuery cap query params).2 = .ok res →
      (∃ cs, res.columns = some cs) ∧ (∃ rs, res.rows = some rs)) ∧
    (∀ (cap : Cap) (queries : List BatchEntry) (results : List ItemResult),
      (runExecuteBatch cap queries).2 = .ok results →
      ∀ res ∈ results, (∃ cs, res.columns = some cs) ∧ (∃ rs, res.rows = some rs)) := by
  refine ⟨?_, ?_, ?_, ?_, ?_, ?_⟩
  · intro cap table columns ds values itemsPath items results h res hres
    simp only [runInsertRows] at h
    cases hb : buildInsertPlan table columns ds values itemsPath items with
    | error e =>
      rw [hb] at h
      exact absurd h (by simp)
    | ok plan =>
      rw [hb] at h
      obtain ⟨raw, rfl⟩ := runStmts_shape h res hres
      exact ⟨rfl, rfl⟩
  · intro cap table columns whereClause whereArgs ds values itemsPath items results h res hres
    simp only [runUpdateRows] at h
    cases hb : buildUpdatePlan table columns whereClause whereArgs ds values itemsPath items with
    | error e =>
      rw [hb] at h
      exact absurd h (by simp)
    | ok plan =>
      rw [hb] at h
      obtain ⟨raw, rfl⟩ := runStmts_shape h res hres
      exact ⟨rfl, rfl, rfl⟩
  · intro cap table whereClause whereArgs res h
    simp only [runDeleteRows] at h
    cases hb : buildDeletePlan table whereClause whereArgs with
    | error e =>
      rw [hb] at h
      exact absurd h (by simp)
    | ok stmt =>
      rw [hb] at h
      dsimp only at h
      cases hcap : cap stmt with
      | error e =>
        rw [hcap] at h
        exact absurd h (by simp)
      | ok r =>
        rw [hcap] at h
        simp only [Except.ok.injEq] at h
        subst h
        exact ⟨rfl, rfl, rfl⟩
  · intro cap d res h
    simp only [runSelectRows] at h
    cases hb : buildSelect d with
    | error e =>
      rw [hb] at h
      exact absurd h (by simp)
    | ok stmt =>
      rw [hb] at h
      dsimp only at h
      cases hcap : cap stmt with
      | error e =>
        rw [hcap] at h
        exact absurd h (by simp)
      | ok r =>
        rw [hcap] at h
        simp only [Except.ok.injEq] at h
        subst h
        exact ⟨⟨_, rfl⟩, ⟨_, rfl⟩, rfl, rfl⟩
  · intro cap query params res h
    simp only [runExecuteQuery] at h
    by_cases hb : isBlank query = true
    · rw [if_pos hb] at h
      exact absurd h (by simp)
    · rw [if_neg hb] at h
      cases hcap : cap ⟨query, params.map JsValue.str⟩ with
      | error e =>
        rw [hcap] at h
        simp at h
      | ok r =>
        rw [hcap] at h
        simp only at h
        simp only [Except.ok.injEq] at h
        subst h
        exact ⟨⟨_, rfl⟩, ⟨_, rfl⟩⟩
  · intro cap queries results h res hres
    simp only [runExecuteBatch] at h
    by_cases hq : queries.length = 0
    · rw [if_pos hq] at h
      exact absurd h (by simp)
    · rw [if_neg hq] at h
      obtain ⟨raw, rfl⟩ := runExecuteBatchAux_shape h res hres
      exact ⟨⟨_, rfl⟩, ⟨_, rfl⟩⟩

/-- C10 witness: the shape theorem applied to concrete insert and select
runs against the sample capability. -/
theorem mutation_result_shapes_witness :
    ItemResult.columns ⟨none, none, some 1, some (.num 5)⟩ = none ∧
    (∃ cs, ItemResult.columns ⟨some ["c"], some [], none, none⟩ = some cs) := by
  constructor
  · have h := mutation_result_shapes.1 capSample "t" ["a"] .manualInput ["1"] "" []
      [⟨none, none, some 1, some (.num 5)⟩] (by rfl)
    exact (h _ (by simp)).1
  · have h := mutation_result_shapes.2.2.2.1 capSample
      ⟨"t", true, [], false, "", [], false, "", "", false, 0, 0⟩
      ⟨some ["c"], some [], none, none⟩ (by rfl)
    exact h.1
